import Mathlib

/-!
Verification of the RISC-V assembler in `assembler.py`.

Python strings are modelled as `List Char`; Python exceptions are modelled by
an error type carried in `Except`.  Each definition below is a direct
translation of the correspondingly named Python function; the Python builtin
behaviours the assembler relies on (`str.strip`, `str.split`, `str.isdecimal`,
`int(...)`, slicing, `>>`) are reproduced by the `py*` helpers.
-/

/-- Errors: the assembler's own exception classes, plus the Python builtin
exceptions that uncaught operations raise (subscripting an int, calling a
method on `None`, indexing out of range, a failed `int(...)`, a missing
dictionary key). -/
inductive AsmError where
  | BadImmediate
  | BadOperands
  | BadInstruction
  | BadRegister
  | BadField
  | BadFormat
  | BadLabel
  | PyTypeError
  | PyAttributeError
  | PyIndexError
  | PyValueError
  | PyKeyError
deriving DecidableEq

/-- Whitespace, as stripped by Python's `str.strip` and split by `str.split()`. -/
def pyIsSpace (c : Char) : Bool :=
  c == ' ' || c == '\t' || c == '\n' || c == '\r'

/-- Python `s.strip()`: drop leading and trailing whitespace. -/
def pyStrip (cs : List Char) : List Char :=
  ((cs.dropWhile pyIsSpace).reverse.dropWhile pyIsSpace).reverse

/-- Worker for `pySplitWs`, accumulating the current (reversed) token. -/
def pySplitWsGo : List Char → List Char → List (List Char)
  | [], acc => if acc.isEmpty then [] else [acc.reverse]
  | c :: cs, acc =>
    if pyIsSpace c then
      if acc.isEmpty then pySplitWsGo cs [] else acc.reverse :: pySplitWsGo cs []
    else pySplitWsGo cs (c :: acc)

/-- Python `s.split()`: split on runs of whitespace, discarding empty pieces. -/
def pySplitWs (cs : List Char) : List (List Char) :=
  pySplitWsGo cs []

/-- Python `s.split(sep)` for a one-character separator. -/
def pySplitOnChar (sep : Char) : List Char → List (List Char)
  | [] => [[]]
  | c :: cs =>
    if c = sep then [] :: pySplitOnChar sep cs
    else
      match pySplitOnChar sep cs with
      | [] => [[c]]
      | t :: ts => (c :: t) :: ts

/-- Python `s.split(sep, 1)` (maxsplit 1): `none` when `sep` does not occur,
otherwise the part before the first `sep` and everything after it. -/
def pySplitOnce (sep : Char) (cs : List Char) : Option (List Char × List Char) :=
  match pySplitOnChar sep cs with
  | [] => none
  | [_] => none
  | x :: rest => some (x, List.intercalate [sep] rest)

/-- Python `s.isdecimal()` for ASCII source text: nonempty and all digits. -/
def pyIsDecimal (cs : List Char) : Bool :=
  !cs.isEmpty && cs.all Char.isDigit

/-- Decimal value of a digit string. -/
def digitsVal (cs : List Char) : Nat :=
  cs.foldl (fun a c => 10 * a + (c.toNat - 48)) 0

/-- Python `int(s)`: strip whitespace, optional sign, then digits; `none` when
the call would raise `ValueError`. -/
def parsePyInt (cs : List Char) : Option Int :=
  match pyStrip cs with
  | [] => none
  | '-' :: rest =>
    if rest.isEmpty then none
    else if rest.all Char.isDigit then some (-(digitsVal rest : Int)) else none
  | '+' :: rest =>
    if rest.isEmpty then none
    else if rest.all Char.isDigit then some ((digitsVal rest : Int)) else none
  | l => if l.all Char.isDigit then some ((digitsVal l : Int)) else none

/-- Python `x >> 1` on an int is an arithmetic (floor) shift; for the positive
divisor 2 floor division coincides with Euclidean division. -/
def pyShr1 (d : Int) : Int :=
  Int.ediv d 2

/-- The character for one bit. -/
def bitChar (b : Bool) : Char :=
  if b then '1' else '0'

/-- The `size`-character binary string of `n` (most significant bit first),
i.e. Python's zero-padded `bin(n)[2:]` for `n < 2 ^ size`. -/
def natBinChars (size : Nat) (n : Nat) : List Char :=
  (List.range size).map (fun i => bitChar (n.testBit (size - 1 - i)))

/-- Numeric value of a binary character string (spec-side read-back used to
state properties of the codec). -/
def bitsToNat (cs : List Char) : Nat :=
  cs.foldl (fun a c => 2 * a + (if c = '1' then 1 else 0)) 0

/-- Enum of instruction Types (`Types` in the source). -/
inductive Types where
  | R
  | I
  | S
  | SB
  | U
  | UJ
  | PSEUDO
deriving DecidableEq

/-- The `inst_to_types` dictionary entries, in source order. -/
def inst_to_types_table : List (String × Types) :=
  [("add", Types.R), ("sub", Types.R), ("xor", Types.R), ("or", Types.R),
   ("and", Types.R), ("sll", Types.R), ("srl", Types.R), ("sra", Types.R),
   ("slt", Types.R),
   ("addi", Types.I), ("xori", Types.I), ("ori", Types.I), ("andi", Types.I),
   ("slli", Types.I), ("srli", Types.I), ("srai", Types.I), ("lw", Types.I),
   ("sw", Types.S), ("jalr", Types.I),
   ("beq", Types.SB), ("bne", Types.SB), ("blt", Types.SB), ("bge", Types.SB),
   ("jal", Types.UJ), ("lui", Types.U)]

/-- Dictionary lookup `inst_to_types.get(cmd)`. -/
def inst_to_types (cmd : List Char) : Option Types :=
  (inst_to_types_table.find? (fun p => p.1.data == cmd)).map (fun p => p.2)

/-- Struct holding the fields of an instruction (`FieldData` in the source);
`none` models a field left as Python `None`. -/
structure FieldData where
  opcode : List Char
  func3 : Option (List Char)
  func7 : Option (List Char)
deriving DecidableEq

/-- The `inst_to_fields` dictionary entries, in source order. -/
def inst_to_fields_table : List (String × FieldData) :=
  [("add", FieldData.mk (("0110011").data) (some (("000").data)) (some (("0000000").data))),
   ("sub", FieldData.mk (("0110011").data) (some (("000").data)) (some (("0100000").data))),
   ("xor", FieldData.mk (("0110011").data) (some (("100").data)) (some (("0000000").data))),
   ("or", FieldData.mk (("0110011").data) (some (("110").data)) (some (("0000000").data))),
   ("and", FieldData.mk (("0110011").data) (some (("111").data)) (some (("0000000").data))),
   ("sll", FieldData.mk (("0110011").data) (some (("001").data)) (some (("0000000").data))),
   ("srl", FieldData.mk (("0110011").data) (some (("101").data)) (some (("0000000").data))),
   ("sra", FieldData.mk (("0110011").data) (some (("101").data)) (some (("0100000").data))),
   ("slt", FieldData.mk (("0110011").data) (some (("010").data)) (some (("0000000").data))),
   ("addi", FieldData.mk (("0010011").data) (some (("000").data)) none),
   ("xori", FieldData.mk (("0010011").data) (some (("100").data)) none),
   ("ori", FieldData.mk (("0010011").data) (some (("110").data)) none),
   ("andi", FieldData.mk (("0010011").data) (some (("111").data)) none),
   ("slli", FieldData.mk (("0010011").data) (some (("001").data)) none),
   ("srli", FieldData.mk (("0010011").data) (some (("101").data)) none),
   ("srai", FieldData.mk (("0010011").data) (some (("101").data)) none),
   ("lw", FieldData.mk (("0000011").data) (some (("010").data)) none),
   ("sw", FieldData.mk (("0100011").data) (some (("010").data)) none),
   ("jalr", FieldData.mk (("1100111").data) (some (("000").data)) none),
   ("beq", FieldData.mk (("1100011").data) (some (("000").data)) none),
   ("bne", FieldData.mk (("1100011").data) (some (("001").data)) none),
   ("blt", FieldData.mk (("1100011").data) (some (("100").data)) none),
   ("bge", FieldData.mk (("1100011").data) (some (("101").data)) none),
   ("jal", FieldData.mk (("1101111").data) none none),
   ("lui", FieldData.mk (("0110111").data) none none)]

/-- Dictionary lookup `inst_to_fields[cmd]` (`none` models a `KeyError`). -/
def inst_to_fields (cmd : List Char) : Option FieldData :=
  (inst_to_fields_table.find? (fun p => p.1.data == cmd)).map (fun p => p.2)

/-- The `register_name_to_num` dictionary, exactly as written in the source —
including the entry mapping `x27` to 26. -/
def register_name_to_num_table : List (String × Nat) :=
  [("x0", 0), ("zero", 0), ("x1", 1), ("ra", 1),
   ("x2", 2), ("sp", 2), ("x3", 3), ("gp", 3),
   ("x4", 4), ("tp", 4), ("x5", 5), ("t0", 5),
   ("x6", 6), ("t1", 6), ("x7", 7), ("t2", 7),
   ("x8", 8), ("s0", 8), ("fp", 8),
   ("x9", 9), ("s1", 9), ("x10", 10), ("a0", 10),
   ("x11", 11), ("a1", 11), ("x12", 12), ("a2", 12),
   ("x13", 13), ("a3", 13), ("x14", 14), ("a4", 14),
   ("x15", 15), ("a5", 15), ("x16", 16), ("a6", 16),
   ("x17", 17), ("a7", 17), ("x18", 18), ("s2", 18),
   ("x19", 19), ("s3", 19), ("x20", 20), ("s4", 20),
   ("x21", 21), ("s5", 21), ("x22", 22), ("s6", 22),
   ("x23", 23), ("s7", 23), ("x24", 24), ("s8", 24),
   ("x25", 25), ("s9", 25), ("x26", 26), ("s10", 26),
   ("x27", 26), ("s11", 27), ("x28", 28), ("t3", 28),
   ("x29", 29), ("t4", 29), ("x30", 30), ("t5", 30),
   ("x31", 31), ("at", 31)]

/-- Dictionary lookup in `register_name_to_num`. -/
def register_name_to_num (name : List Char) : Option Nat :=
  (register_name_to_num_table.find? (fun p => p.1.data == name)).map (fun p => p.2)

/-- `is_register_name`: membership in the register dictionary. -/
def is_register_name (name : List Char) : Bool :=
  (register_name_to_num name).isSome

/-- `get_register_bin`: the 5-bit binary string of a register's ID (every ID in
the table is below 32, so Python's `format(num, "#05b")[2:]` left-padded to 5
characters is exactly the 5-bit binary representation). -/
def get_register_bin (name : List Char) : Except AsmError (List Char) :=
  match register_name_to_num name with
  | none => Except.error AsmError.BadRegister
  | some n => Except.ok (natBinChars 5 n)

/-- `is_core_inst`: membership in `inst_to_types`. -/
def is_core_inst (cmd : List Char) : Bool :=
  (inst_to_types cmd).isSome

/-- `is_int`: whether Python `int(s)` succeeds. -/
def is_int (s : List Char) : Bool :=
  (parsePyInt s).isSome

/-- `dec_to_bin` on an int argument: error when `decimal >= 2 ** size`,
otherwise the `size`-bit string of `((1 << size) - 1) & decimal`, i.e. of
`decimal` reduced modulo `2 ^ size`. -/
def dec_to_bin (decimal : Int) (size : Nat) : Except AsmError (List Char) :=
  if (2 : Int) ^ size ≤ decimal then Except.error AsmError.BadImmediate
  else Except.ok (natBinChars size ((decimal.emod ((2 : Int) ^ size)).toNat))

/-- `dec_to_bin` on a string argument: the `ValueError` of a failed `int(...)`
is caught and re-raised as `BadImmediate`. -/
def dec_to_bin_str (s : List Char) (size : Nat) : Except AsmError (List Char) :=
  match parsePyInt s with
  | none => Except.error AsmError.BadImmediate
  | some d => dec_to_bin d size

/-- `join_inst_fields_bin`: concatenate the field strings, remove any spaces,
left-pad with zeros to 32 characters, and regroup into eight 4-character
groups separated by spaces (characters past position 32 are dropped by the
grouping, exactly as in the source). -/
def join_inst_fields_bin (inst_list : List (List Char)) : List Char :=
  let s := (inst_list.flatten).filter (fun c => c != ' ')
  let s := List.replicate (32 - s.length) '0' ++ s
  List.intercalate [' '] ((List.range 8).map (fun i => (s.drop (4 * i)).take 4))

/-- `index_to_address`: text-segment address of the instruction at `index`. -/
def index_to_address (index : Nat) : Nat :=
  0x00400000 + index * 4

/-- Label-table lookup (`label not in labels` / `labels[label]`). -/
def lookup_label (labels : List (List Char × Nat)) (label : List Char) : Option Nat :=
  (labels.find? (fun p => p.1 == label)).map (fun p => p.2)

/-- `label_to_offset`: byte offset between a label and the PC at
`instruction_index`.  When the table is empty the source silently sets the
pointer to `0x00400000` instead of raising. -/
def label_to_offset (labels : List (List Char × Nat)) (label : List Char)
    (instruction_index : Nat) : Except AsmError Int :=
  if labels.length = 0 then
    Except.ok ((0x00400000 : Int) - (index_to_address instruction_index : Int))
  else
    match lookup_label labels label with
    | none => Except.error AsmError.BadLabel
    | some pointer =>
      Except.ok ((pointer : Int) - (index_to_address instruction_index : Int))

/-- `parse_base_offset`: strip `)`, split on `(`, convert offset and base. -/
def parse_base_offset (operand_string : List Char) :
    Except AsmError (List Char × List Char) :=
  let s := operand_string.filter (fun c => c != ')')
  let pieces := pySplitOnChar '(' s
  if pieces.length ≠ 2 then Except.error AsmError.BadImmediate
  else
    match pieces with
    | [p0, p1] => do
      let imm ← dec_to_bin_str p0 12
      let rs1 ← get_register_bin p1
      Except.ok (imm, rs1)
    | _ => Except.error AsmError.BadImmediate

/-- `Assemble_R_Type`: operand-count check, field lookup, three register
conversions, then the trailing `is_register_name` re-checks (which cannot fire
once `get_register_bin` has succeeded), and the field join. -/
def Assemble_R_Type (cmd : List Char) (operands : List (List Char))
    (line_num : Nat) : Except AsmError (List Char) :=
  match operands with
  | [o0, o1, o2] =>
    match inst_to_fields cmd with
    | none => Except.error AsmError.PyKeyError
    | some fd => do
      let rd ← get_register_bin o0
      let rs1 ← get_register_bin o1
      let rs2 ← get_register_bin o2
      if ¬ (is_register_name o2) then Except.error AsmError.BadRegister
      else if ¬ (is_register_name o1) then Except.error AsmError.BadRegister
      else if ¬ (is_register_name o0) then Except.error AsmError.BadRegister
      else
        match fd.func7, fd.func3 with
        | some f7, some f3 =>
          Except.ok (join_inst_fields_bin [f7, rs2, rs1, f3, rd, fd.opcode])
        | _, _ => Except.error AsmError.PyTypeError
  | _ => Except.error AsmError.BadOperands

/-- `Assemble_I_Type`: plain I-format packer (also reached by `srai`, which the
dispatcher routes here rather than to the shift packer). -/
def Assemble_I_Type (cmd : List Char) (operands : List (List Char))
    (line_num : Nat) : Except AsmError (List Char) :=
  match operands with
  | [o0, o1, o2] =>
    if ¬ (is_core_inst cmd) then Except.error AsmError.BadInstruction
    else
      match inst_to_fields cmd with
      | none => Except.error AsmError.PyKeyError
      | some fd => do
        let rd ← get_register_bin o0
        let rs1 ← get_register_bin o1
        let imm ← dec_to_bin_str o2 12
        match fd.func3 with
        | some f3 => Except.ok (join_inst_fields_bin [imm, rs1, f3, rd, fd.opcode])
        | none => Except.error AsmError.PyTypeError
  | _ => Except.error AsmError.BadOperands

/-- `Assemble_I_Type_shift`: never called by `Assemble`; its first line
evaluates `int(operands[2])` (an `IndexError`/`ValueError` point) and rejects
shift amounts below 0 or above 13, then for `srai` overwrites the top of the
immediate with `010000`. -/
def Assemble_I_Type_shift (cmd : List Char) (operands : List (List Char))
    (line_num : Nat) : Except AsmError (List Char) :=
  match operands.get? 2 with
  | none => Except.error AsmError.PyIndexError
  | some o2 =>
    match parsePyInt o2 with
    | none => Except.error AsmError.PyValueError
    | some v =>
      if v < 0 ∨ v > 13 then Except.error AsmError.BadImmediate
      else if operands.length ≠ 3 then Except.error AsmError.BadOperands
      else if ¬ (is_core_inst cmd) then Except.error AsmError.BadInstruction
      else
        match inst_to_fields cmd with
        | none => Except.error AsmError.PyKeyError
        | some fd =>
          match operands with
          | [o0, o1, o2a] => do
            let rd ← get_register_bin o0
            let rs1 ← get_register_bin o1
            let imm ← dec_to_bin_str o2a 12
            let imm := if cmd = ("srai").data then
                (("010000").data) ++ ((imm.drop 6).take 7)
              else imm
            match fd.func3 with
            | some f3 =>
              Except.ok (join_inst_fields_bin [imm, rs1, f3, rd, fd.opcode])
            | none => Except.error AsmError.PyTypeError
          | _ => Except.error AsmError.PyIndexError

/-- `Assemble_I_Type_base_offset` (`lw`/`jalr`): the 3-operand reorder applies
only to `jalr`; afterwards the immediate is built from `operands[1][0]`
(`operands[1][0:2]` when negative) — the first character(s) of the offset
token, not the parsed offset. -/
def Assemble_I_Type_base_offset (cmd : List Char) (operands0 : List (List Char))
    (line_num : Nat) : Except AsmError (List Char) :=
  if ¬ (is_core_inst cmd) then Except.error AsmError.BadInstruction
  else if operands0.length ≠ 2 ∧ cmd ≠ ("jalr").data then
    Except.error AsmError.BadOperands
  else
    let operands :=
      match operands0 with
      | [o0, o1, o2] =>
        if cmd = ("jalr").data then
          if pyIsDecimal o2 ∧ ¬ (pyIsDecimal o1) then
            let n2 := if o1.head? = some '(' ∧ o1.getLast? = some ')' then o1
              else '(' :: (o1 ++ [')'])
            [o0, o2, n2]
          else operands0
        else operands0
      | _ => operands0
    do
    let rs1 ←
      if cmd = ("jalr").data ∧ operands.length = 3 then
        match operands with
        | [_, o1, o2] => do
          let p ← parse_base_offset (o1 ++ o2)
          Except.ok p.2
        | _ => Except.error AsmError.PyIndexError
      else
        match operands.get? 1 with
        | none => Except.error AsmError.PyIndexError
        | some o1 => do
          let p ← parse_base_offset o1
          Except.ok p.2
    let rd ←
      match operands.get? 0 with
      | none => Except.error AsmError.PyIndexError
      | some o0 => get_register_bin o0
    let imm ←
      match operands.get? 1 with
      | none => Except.error AsmError.PyIndexError
      | some o1 =>
        match o1 with
        | [] => Except.error AsmError.PyIndexError
        | c :: _ =>
          if c = '-' then dec_to_bin_str (o1.take 2) 12
          else dec_to_bin_str [c] 12
    match inst_to_fields cmd with
    | none => Except.error AsmError.PyKeyError
    | some fd =>
      match fd.func3 with
      | none => Except.error AsmError.PyTypeError
      | some f3 => Except.ok (join_inst_fields_bin [imm, rs1, f3, rd, fd.opcode])

/-- `Assemble_S_Type`: the source's sign test runs the same register lookup in
both branches, and its `rs1.isdigit == False` comparison tests a bound method
against `False`, which is always false, so it never raises. -/
def Assemble_S_Type (cmd : List Char) (operands : List (List Char))
    (line_num : Nat) : Except AsmError (List Char) :=
  if ¬ (is_core_inst cmd) then Except.error AsmError.BadInstruction
  else
    match operands with
    | [o0, o1] => do
      let rs2 ← get_register_bin o0
      let rs1 ←
        match (pySplitOnChar '(' o1).get? 1 with
        | none => Except.error AsmError.PyIndexError
        | some piece =>
          get_register_bin ((piece.reverse.dropWhile (fun c => c == ')')).reverse)
      let imm ←
        match (pySplitOnChar '(' o1).get? 0 with
        | none => Except.error AsmError.PyIndexError
        | some piece => dec_to_bin_str piece 12
      match inst_to_fields cmd with
      | none => Except.error AsmError.PyKeyError
      | some fd =>
        match fd.func3 with
        | some f3 =>
          Except.ok (join_inst_fields_bin
            [imm.take 7, rs2, rs1, f3, imm.drop 7, fd.opcode])
        | none => Except.error AsmError.PyTypeError
    | _ => Except.error AsmError.BadOperands

/-- `Assemble_SB_Type`: with three operands the immediate is built from the
right-shifted offset before the register lookups; with two operands the source
binds `imm` to the integer 0 and the later `imm[0]` subscript raises a
`TypeError`. -/
def Assemble_SB_Type (cmd : List Char) (operands : List (List Char))
    (line_num : Nat) (labels : List (List Char × Nat)) :
    Except AsmError (List Char) :=
  if ¬ (is_core_inst cmd) then Except.error AsmError.BadInstruction
  else
    match operands with
    | [o0, o1, o2] => do
      let imm ←
        (if pyIsDecimal o2 ∨ o2.head? = some '-' then
          match parsePyInt o2 with
          | some v => dec_to_bin (pyShr1 v) 12
          | none => Except.error AsmError.PyValueError
        else if is_register_name o2 then Except.error AsmError.BadImmediate
        else do
          let off ← label_to_offset labels o2 line_num
          dec_to_bin (pyShr1 off) 12)
      let rs1 ← get_register_bin o0
      let rs2 ← get_register_bin o1
      match imm.get? 0, imm.get? 1 with
      | some c0, some c1 =>
        match inst_to_fields cmd with
        | none => Except.error AsmError.PyKeyError
        | some fd =>
          match fd.func3 with
          | some f3 =>
            Except.ok (join_inst_fields_bin
              [[c0] ++ ((imm.drop 2).take 6), rs2, rs1, f3,
               ((imm.drop 8).take 4) ++ [c1], fd.opcode])
          | none => Except.error AsmError.PyTypeError
      | _, _ => Except.error AsmError.PyIndexError
    | [o0, o1] => do
      let _ ← get_register_bin o0
      let _ ← get_register_bin o1
      Except.error AsmError.PyTypeError
    | _ => Except.error AsmError.BadOperands

/-- `Assemble_U_Type`: range check on the raw token, then a 20-bit convert. -/
def Assemble_U_Type (cmd : List Char) (operands : List (List Char))
    (line_num : Nat) : Except AsmError (List Char) :=
  if ¬ (is_core_inst cmd) then Except.error AsmError.BadInstruction
  else
    match operands with
    | [o0, o1] => do
      let rd ← get_register_bin o0
      let _ ← (
        match o1 with
        | [] => Except.error AsmError.PyIndexError
        | '-' :: rest =>
          if pyIsDecimal rest then
            match parsePyInt o1 with
            | some v =>
              if v < -524288 ∨ v > 524287 then Except.error AsmError.BadImmediate
              else Except.ok ()
            | none => Except.error AsmError.PyValueError
          else Except.error AsmError.BadImmediate
        | _ :: _ =>
          if pyIsDecimal o1 then
            match parsePyInt o1 with
            | some v =>
              if v < -524288 ∨ v > 524287 then Except.error AsmError.BadImmediate
              else Except.ok ()
            | none => Except.error AsmError.PyValueError
          else Except.error AsmError.BadImmediate : Except AsmError Unit)
      let imm ← dec_to_bin_str o1 20
      match inst_to_fields cmd with
      | none => Except.error AsmError.PyKeyError
      | some fd => Except.ok (join_inst_fields_bin [imm, rd, fd.opcode])
    | _ => Except.error AsmError.BadOperands

/-- `Assemble_UJ_Type`: a numeric target is range-checked and used as the PC
offset, otherwise a register token is a `BadImmediate` and a label is resolved
through `label_to_offset`; the shifted offset is converted to 20 bits and its
pieces reordered. -/
def Assemble_UJ_Type (cmd : List Char) (operands : List (List Char))
    (line_num : Nat) (labels : List (List Char × Nat)) :
    Except AsmError (List Char) :=
  if ¬ (is_core_inst cmd) then Except.error AsmError.BadInstruction
  else
    match operands with
    | [o0, o1] => do
      let rd ← get_register_bin o0
      let offset ←
        (if is_int o1 then
          match parsePyInt o1 with
          | some v =>
            if v < -(2 ^ 20 : Int) ∨ v > (2 ^ 20 : Int) - 1 then
              Except.error AsmError.BadImmediate
            else Except.ok v
          | none => Except.error AsmError.PyValueError
        else if is_register_name o1 then Except.error AsmError.BadImmediate
        else label_to_offset labels o1 line_num : Except AsmError Int)
      let imm ← dec_to_bin (pyShr1 offset) 20
      match imm.get? 0, imm.get? 9 with
      | some c0, some c9 =>
        let total := [c0] ++ ((imm.drop 10).take 10) ++ [c9] ++
          ((imm.drop 1).take 8)
        match inst_to_fields cmd with
        | none => Except.error AsmError.PyKeyError
        | some fd => Except.ok (join_inst_fields_bin [total, rd, fd.opcode])
      | _, _ => Except.error AsmError.PyIndexError
    | _ => Except.error AsmError.BadOperands

/-- `Assemble`: tokenize (commas become spaces), look the mnemonic up in
`inst_to_types`, and dispatch.  A mnemonic missing from the dictionary matches
no case of the Python `match`, so `result` keeps its initial value `""` and is
returned without any error. -/
def Assemble (inst : List Char) (line_num : Nat)
    (labels : List (List Char × Nat)) : Except AsmError (List Char) :=
  let split_inst := pySplitWs ((pyStrip inst).map (fun c => if c = ',' then ' ' else c))
  match split_inst with
  | [] => Except.error AsmError.PyIndexError
  | cmd :: args =>
    match inst_to_types cmd with
    | some Types.R => Assemble_R_Type cmd args line_num
    | some Types.I =>
      if cmd = ("lw").data ∨ cmd = ("jalr").data then
        Assemble_I_Type_base_offset cmd args line_num
      else Assemble_I_Type cmd args line_num
    | some Types.S => Assemble_S_Type cmd args line_num
    | some Types.U => Assemble_U_Type cmd args line_num
    | some Types.UJ => Assemble_UJ_Type cmd args line_num labels
    | some Types.SB => Assemble_SB_Type cmd args line_num labels
    | some Types.PSEUDO => Except.ok []
    | none => Except.ok []

/-- `split_out_label`: the membership test `":" in clean` is equivalent to the
split on the raw line succeeding, since `:` is not whitespace. -/
def split_out_label (line : List Char) :
    Except AsmError (Option (List Char) × Option (List Char)) :=
  let clean := pyStrip line
  match pySplitOnce ':' line with
  | some (before, after) =>
    let label := pyStrip before
    let inst := if (pyStrip after).isEmpty then none else some (pyStrip after)
    if (pySplitWs label).length > 1 then Except.error AsmError.BadLabel
    else Except.ok (some label, inst)
  | none => Except.ok (none, some clean)

/-- Worker for `pseudoinstruction_pass`, threading the running line index.
When a line is label-only, `split_out_label` returns `None` for the
instruction and the source's `instr.split()` raises `AttributeError`. -/
def pseudoinstruction_pass_aux
    (pseudos : List Char → Option (List Char → Nat → List (List Char))) :
    List (List Char) → Nat → Except AsmError (List (List Char))
  | [], _ => Except.ok []
  | line :: rest, i =>
    match split_out_label line with
    | Except.error e => Except.error e
    | Except.ok (_, instr) =>
      match instr with
      | none => Except.error AsmError.PyAttributeError
      | some t =>
        match pySplitWs t with
        | [] => Except.error AsmError.PyIndexError
        | cmd :: _ =>
          match pseudoinstruction_pass_aux pseudos rest (i + 1) with
          | Except.error e => Except.error e
          | Except.ok tail =>
            match pseudos cmd with
            | some f => Except.ok (f t i ++ tail)
            | none => Except.ok (line :: tail)

/-- `pseudoinstruction_pass`: expand registered pseudo mnemonics, passing
other lines through. -/
def pseudoinstruction_pass (asm_lines : List (List Char))
    (pseudos : List Char → Option (List Char → Nat → List (List Char))) :
    Except AsmError (List (List Char)) :=
  pseudoinstruction_pass_aux pseudos asm_lines 0

/-- Worker for `parse_labels`, carrying the instruction list, label table and
running address counter. -/
def parse_labels_aux :
    List (List Char) → List (List Char) → List (List Char × Nat) → Nat →
    Except AsmError (List (List Char) × List (List Char × Nat))
  | [], instructions, label_dict, _ => Except.ok (instructions, label_dict)
  | line :: rest, instructions, label_dict, address =>
    match pySplitOnce ':' line with
    | some (before, after) =>
      let label := pyStrip before
      if label ∈ label_dict.map Prod.fst then Except.error AsmError.BadLabel
      else
        let instruction := pyStrip after
        if instruction = [] then
          parse_labels_aux rest instructions (label_dict ++ [(label, address)]) address
        else
          parse_labels_aux rest (instructions ++ [instruction])
            (label_dict ++ [(label, address)]) (address + 4)
    | none =>
      parse_labels_aux rest (instructions ++ [pyStrip line]) label_dict (address + 4)

/-- `parse_labels`: split labels from instructions, starting the address
counter at `0x00400000`. -/
def parse_labels (asm_list : List (List Char)) :
    Except AsmError (List (List Char) × List (List Char × Nat)) :=
  parse_labels_aux asm_list [] [] 0x00400000

/-- An empty pseudo-instruction registry. -/
def no_pseudos : List Char → Option (List Char → Nat → List (List Char)) :=
  fun _ => none

/-- A registry defining one pseudo, `dbl`, expanding to a single line. -/
def dbl_pseudos : List Char → Option (List Char → Nat → List (List Char)) :=
  fun c =>
    if c = ("dbl").data then some (fun _ _ => [("add x1, x1, x1").data])
    else none

/-- C1: the claim says an unmapped mnemonic makes `Assemble` fail with
`BadInstruction`.  In the code the Python `match` on the dictionary lookup has
no case for `None`, so `result` keeps its initial value `""` and `Assemble`
returns the empty string with no error at all; the same holds for the spec's
example of an invalid mnemonic.  (Contrast: `add` does encode.) -/
theorem Assemble_unmapped_returns_empty :
    Assemble (("foo x1, x2, x3").data) 0 [] = Except.ok [] ∧
    Assemble (("mul x1, x2, x3").data) 0 [] = Except.ok [] ∧
    Assemble (("add t0, t1, t2").data) 0 [] =
      Except.ok (("0000 0000 0111 0011 0000 0010 1011 0011").data) :=
  ⟨rfl, rfl, rfl⟩

/-- C2: the claim says all three `lw`/`jalr` syntaxes are accepted and the
12-bit immediate always encodes the full decimal offset.  In the code the
immediate is built from only the first character of `operands[1]`
(`lw t0, 12(t1)` encodes immediate 1, not 12), and for `lw` the two
three-token syntaxes raise `BadOperands`; `jalr` with a multi-digit offset is
truncated the same way. -/
theorem Assemble_base_offset_truncates :
    Assemble (("lw t0, 12(t1)").data) 0 [] =
      Except.ok (("0000 0000 0001 0011 0010 0010 1000 0011").data) ∧
    Assemble (("lw t0, t1, 12").data) 0 [] = Except.error AsmError.BadOperands ∧
    Assemble (("lw t0, 4 (t1)").data) 0 [] = Except.error AsmError.BadOperands ∧
    Assemble (("jalr x0, 12(ra)").data) 0 [] =
      Except.ok (("0000 0000 0001 0000 1000 0000 0110 0111").data) :=
  ⟨rfl, rfl, rfl, rfl⟩

/-- C4: the claim says a line consisting only of a label passes through the
expander unchanged, and that a label on a pseudo line is re-attached to the
first expanded line.  In the code a label-only line gives `instr = None` and
`instr.split()` raises `AttributeError`, and the expansion of a labelled
pseudo line drops the label entirely (`newLines.extend(expanded_lines)` with
no re-attachment); only an unlabelled non-pseudo line passes through. -/
theorem pseudoinstruction_pass_crashes :
    pseudoinstruction_pass [("mylbl:").data] no_pseudos =
      Except.error AsmError.PyAttributeError ∧
    pseudoinstruction_pass [("lbl: dbl x1").data] dbl_pseudos =
      Except.ok [("add x1, x1, x1").data] ∧
    pseudoinstruction_pass [("dbl x1").data] dbl_pseudos =
      Except.ok [("add x1, x1, x1").data] ∧
    pseudoinstruction_pass [("sub x3, x4, x5").data] dbl_pseudos =
      Except.ok [("sub x3, x4, x5").data] :=
  ⟨rfl, rfl, rfl, rfl⟩

/-- C6: the claim says `srai rd, rs1, shamt` with shamt in [0,31] encodes with
the top 6 immediate bits forced to `010000`.  `Assemble` routes `srai` to the
plain I-type packer, which forces nothing (shamt 20 encodes with top bits
`000000`, and so does shamt 5); the shift packer that would force the bits is
never called and itself rejects every shamt above 13. -/
theorem srai_top_bits_not_forced :
    Assemble (("srai x1, x2, 20").data) 0 [] =
      Except.ok (("0000 0001 0100 0001 0101 0000 1001 0011").data) ∧
    Assemble (("srai x1, x2, 5").data) 0 [] =
      Except.ok (("0000 0000 0101 0001 0101 0000 1001 0011").data) ∧
    Assemble_I_Type_shift (("srai").data)
      [("x1").data, ("x2").data, ("20").data] 0 =
      Except.error AsmError.BadImmediate :=
  ⟨rfl, rfl, rfl⟩

/-- C8: the claim says an unresolved label target fails with `BadLabel` even
when the label table is empty.  With an empty table `label_to_offset` silently
sets the pointer to `0x00400000` and returns an offset, and `jal` to an
undefined label assembles without error; only a nonempty table missing the
label raises `BadLabel`. -/
theorem label_to_offset_empty_table_no_error :
    label_to_offset [] (("loop").data) 1 = Except.ok (-4) ∧
    Assemble (("jal ra, loop").data) 0 [] =
      Except.ok (("0000 0000 0000 0000 0000 0000 1110 1111").data) ∧
    label_to_offset [((("main").data : List Char), 0x00400000)]
      (("loop").data) 0 = Except.error AsmError.BadLabel :=
  ⟨rfl, rfl, rfl⟩

/-- C9: the claim says an SB branch with only two operands raises
`BadOperands`.  In the code the two-operand branch binds `imm` to the integer
0 and the later `imm[0]` subscript raises a Python `TypeError` instead; the
R-type arity check (`add x0, x1`) does raise `BadOperands` as claimed. -/
theorem sb_arity_two_typeerror :
    Assemble (("beq x1, x2").data) 0 [] = Except.error AsmError.PyTypeError ∧
    Assemble (("add x0, x1").data) 0 [] = Except.error AsmError.BadOperands :=
  ⟨rfl, rfl⟩

/-- C10: the claim says every alias `xN` resolves to register ID N.  The
dictionary entry for `x27` maps it to 26, so `get_register_bin "x27"` returns
`11010` (26) rather than `11011` (27); the table literally contains
`("x27", 26)`. -/
theorem register_x27_resolves_to_26 :
    register_name_to_num (("x27").data) = some 26 ∧
    get_register_bin (("x27").data) = Except.ok (("11010").data) ∧
    natBinChars 5 27 = ("11011").data :=
  ⟨rfl, rfl, rfl⟩

/-- Folding the binary read-back from an arbitrary accumulator. -/
theorem bitsToNat_foldl (cs : List Char) :
    ∀ a : Nat,
      cs.foldl (fun a c => 2 * a + (if c = '1' then 1 else 0)) a =
        a * 2 ^ cs.length +
          cs.foldl (fun a c => 2 * a + (if c = '1' then 1 else 0)) 0 := by
  induction cs with
  | nil => intro a; simp
  | cons c cs ih =>
    intro a
    simp only [List.foldl_cons, List.length_cons]
    rw [ih (2 * a + (if c = '1' then 1 else 0)),
      ih (2 * 0 + (if c = '1' then 1 else 0))]
    ring

/-- Reading back a bit string one character longer. -/
theorem bitsToNat_cons (c : Char) (cs : List Char) :
    bitsToNat (c :: cs) =
      (if c = '1' then 1 else 0) * 2 ^ cs.length + bitsToNat cs := by
  simp only [bitsToNat, List.foldl_cons]
  rw [bitsToNat_foldl]
  ring_nf

/-- Peeling the top bit off the binary rendering. -/
theorem natBinChars_succ (s n : Nat) :
    natBinChars (s + 1) n = bitChar (n.testBit s) :: natBinChars s n := by
  simp only [natBinChars, List.range_succ_eq_map, List.map_cons, List.map_map,
    Function.comp]
  refine congrArg₂ List.cons ?_ ?_
  · congr 1
  · refine List.map_congr_left ?_
    intro i _
    show bitChar (n.testBit (s + 1 - 1 - (i + 1))) = bitChar (n.testBit (s - 1 - i))
    have h : s + 1 - 1 - (i + 1) = s - 1 - i := by omega
    rw [h]

/-- The binary rendering of `n` to `s` characters reads back as `n % 2 ^ s`. -/
theorem bitsToNat_natBinChars (s n : Nat) :
    bitsToNat (natBinChars s n) = n % 2 ^ s := by
  induction s with
  | zero => simp [natBinChars, bitsToNat, Nat.mod_one]
  | succ s ih =>
    rw [natBinChars_succ, bitsToNat_cons, ih]
    have hlen : (natBinChars s n).length = s := by simp [natBinChars]
    rw [hlen]
    have hm : n % 2 ^ (s + 1) = n % 2 ^ s + 2 ^ s * (n / 2 ^ s % 2) := by
      rw [pow_succ]
      exact Nat.mod_mul
    rw [hm, Nat.testBit_to_div_mod]
    rcases Nat.mod_two_eq_zero_or_one (n / 2 ^ s) with h | h
    · simp [h, bitChar]
    · simp [h, bitChar]
      omega

/-- C7: `dec_to_bin` raises `BadImmediate` exactly when the integer value is
at least `2 ^ size` (and a string input that cannot be parsed as an integer
fails the same way); otherwise — including for arbitrarily negative inputs —
it returns the `size`-character string whose binary value is the input reduced
modulo `2 ^ size` (two's-complement masking), with `dec_to_bin (-1) 12` all
ones and `dec_to_bin 0 12` all zeros. -/
theorem dec_to_bin_spec (d : Int) (size : Nat) :
    ((∃ e, dec_to_bin d size = Except.error e) ↔ (2 : Int) ^ size ≤ d) ∧
    (d < (2 : Int) ^ size →
      ∃ cs, dec_to_bin d size = Except.ok cs ∧ cs.length = size ∧
        ((bitsToNat cs : Nat) : Int) = d.emod ((2 : Int) ^ size)) ∧
    (∀ s, parsePyInt s = none →
      dec_to_bin_str s size = Except.error AsmError.BadImmediate) ∧
    dec_to_bin (-1) 12 = Except.ok (("111111111111").data) ∧
    dec_to_bin 0 12 = Except.ok (("000000000000").data) := by
  refine ⟨⟨?_, ?_⟩, ?_, ?_, rfl, rfl⟩
  · rintro ⟨e, he⟩
    by_contra h
    push_neg at h
    rw [dec_to_bin, if_neg (not_le.mpr h)] at he
    exact Except.noConfusion he
  · intro h
    exact ⟨AsmError.BadImmediate, by rw [dec_to_bin, if_pos h]⟩
  · intro h
    refine ⟨natBinChars size ((d.emod ((2 : Int) ^ size)).toNat),
      by rw [dec_to_bin, if_neg (not_le.mpr h)], by simp [natBinChars], ?_⟩
    have hP : (0 : Int) < (2 : Int) ^ size := by positivity
    have h0 : 0 ≤ d.emod ((2 : Int) ^ size) := Int.emod_nonneg d (ne_of_gt hP)
    have h1 : d.emod ((2 : Int) ^ size) < (2 : Int) ^ size :=
      Int.emod_lt_of_pos d hP
    have hcast : ((2 : Int) ^ size) = ((2 ^ size : Nat) : Int) := by push_cast; ring
    have hlt : (d.emod ((2 : Int) ^ size)).toNat < 2 ^ size := by omega
    rw [bitsToNat_natBinChars, Nat.mod_eq_of_lt hlt]
    omega
  · intro s hs
    rw [dec_to_bin_str, hs]

/-- Witness for `dec_to_bin_spec` at the very negative input `-70000` with
size 12: the conversion succeeds and masks. -/
theorem dec_to_bin_spec_app :
    ∃ cs, dec_to_bin (-70000) 12 = Except.ok cs ∧ cs.length = 12 ∧
      ((bitsToNat cs : Nat) : Int) = (-70000 : Int).emod ((2 : Int) ^ 12) :=
  (dec_to_bin_spec (-70000) 12).2.1 (by norm_num)

/-- The labels a line sequence declares, in order: the stripped text before
the first colon of each line that contains a colon. -/
def declared_labels (ls : List (List Char)) : List (List Char) :=
  ls.filterMap (fun l => (pySplitOnce ':' l).map (fun p => pyStrip p.1))

/-- The instruction text a line contributes, if any: a line without a colon
contributes its stripped text; a line with a colon contributes the stripped
text after the colon when that text is nonempty. -/
def line_instr (l : List Char) : Option (List Char) :=
  match pySplitOnce ':' l with
  | some (_, after) => if pyStrip after = [] then none else some (pyStrip after)
  | none => some (pyStrip l)

/-- The only exception `parse_labels` can raise is `BadLabel`. -/
theorem parse_labels_aux_error :
    ∀ (ls : List (List Char)) instrs lbls a e,
      parse_labels_aux ls instrs lbls a = Except.error e →
      e = AsmError.BadLabel := by
  intro ls
  induction ls with
  | nil =>
    intro instrs lbls a e h
    simp [parse_labels_aux] at h
  | cons l rest ih =>
    intro instrs lbls a e h
    simp only [parse_labels_aux] at h
    split at h
    · split at h
      · injection h with h
        exact h.symm
      · split at h
        · exact ih _ _ _ _ h
        · exact ih _ _ _ _ h
    · exact ih _ _ _ _ h

/-- On success the accumulated label table is only ever extended. -/
theorem parse_labels_aux_shape :
    ∀ (ls : List (List Char)) instrs lbls a out,
      parse_labels_aux ls instrs lbls a = Except.ok out →
      ∃ ds2, out.2 = lbls ++ ds2 := by
  intro ls
  induction ls with
  | nil =>
    intro instrs lbls a out h
    simp only [parse_labels_aux] at h
    injection h with h
    exact ⟨[], by simp [← h]⟩
  | cons l rest ih =>
    intro instrs lbls a out h
    simp only [parse_labels_aux] at h
    split at h
    · rename_i before after heq
      split at h
      · exact Except.noConfusion h
      · split at h
        · obtain ⟨ds2, hds⟩ := ih _ _ _ _ h
          exact ⟨(pyStrip before, a) :: ds2, by simp [hds]⟩
        · obtain ⟨ds2, hds⟩ := ih _ _ _ _ h
          exact ⟨(pyStrip before, a) :: ds2, by simp [hds]⟩
    · exact ih _ _ _ _ h

/-- Label names accumulate without duplication. -/
theorem parse_labels_aux_nodup :
    ∀ (ls : List (List Char)) instrs lbls a out,
      parse_labels_aux ls instrs lbls a = Except.ok out →
      (lbls.map Prod.fst).Nodup → (out.2.map Prod.fst).Nodup := by
  intro ls
  induction ls with
  | nil =>
    intro instrs lbls a out h hnd
    simp only [parse_labels_aux] at h
    injection h with h
    rw [← h]
    exact hnd
  | cons l rest ih =>
    intro instrs lbls a out h hnd
    simp only [parse_labels_aux] at h
    split at h
    · rename_i before after heq
      split at h
      · exact Except.noConfusion h
      · rename_i hnotmem
        have hnd2 : ((lbls ++ [(pyStrip before, a)]).map Prod.fst).Nodup := by
          simp only [List.map_append, List.map_cons, List.map_nil]
          rw [List.nodup_append]
          refine ⟨hnd, List.nodup_singleton _, ?_⟩
          intro x hx hx2
          simp only [List.mem_singleton] at hx2
          exact hnotmem (hx2 ▸ hx)
        split at h
        · exact ih _ _ _ _ h hnd2
        · exact ih _ _ _ _ h hnd2
    · exact ih _ _ _ _ h hnd

/-- Core invariant of the label pass: starting from a counter in sync with the
number of instructions already emitted, the final instruction list extends the
accumulator with exactly the input's instruction-bearing lines in order, the
label names accumulate in declaration order, and every newly bound label's
address is the counter value for the number of instructions emitted at the
moment it was bound. -/
theorem parse_labels_aux_ok :
    ∀ (ls : List (List Char)) instrs0 lbls0 out,
      parse_labels_aux ls instrs0 lbls0 (0x00400000 + 4 * instrs0.length) =
        Except.ok out →
      out.1 = instrs0 ++ ls.filterMap line_instr ∧
      out.2.map Prod.fst = lbls0.map Prod.fst ++ declared_labels ls ∧
      (∃ ds2, out.2 = lbls0 ++ ds2 ∧
        ∀ p ∈ ds2, ∃ k, instrs0.length ≤ k ∧ k ≤ out.1.length ∧
          p.2 = 0x00400000 + 4 * k) := by
  intro ls
  induction ls with
  | nil =>
    intro instrs0 lbls0 out h
    simp only [parse_labels_aux] at h
    injection h with h
    subst h
    exact ⟨by simp [line_instr], by simp [declared_labels],
      [], by simp, by simp⟩
  | cons l rest ih =>
    intro instrs0 lbls0 out h
    simp only [parse_labels_aux] at h
    split at h
    · rename_i before after heq
      split at h
      · exact Except.noConfusion h
      · rename_i hmem
        split at h
        · rename_i hempty
          obtain ⟨h1, h2, ds2, hds, hprop⟩ := ih _ _ _ h
          refine ⟨?_, ?_,
            (pyStrip before, 0x00400000 + 4 * instrs0.length) :: ds2,
            by simp [hds], ?_⟩
          · rw [h1]
            simp [List.filterMap_cons, line_instr, heq, hempty]
          · rw [h2]
            simp [declared_labels, List.filterMap_cons, heq]
          · intro p hp
            rcases List.mem_cons.mp hp with hp | hp
            · subst hp
              refine ⟨instrs0.length, le_refl _, ?_, rfl⟩
              rw [h1]
              simp
            · exact hprop p hp
        · rename_i hempty
          have haddr : 0x00400000 + 4 * instrs0.length + 4 =
              0x00400000 + 4 * (instrs0 ++ [pyStrip after]).length := by
            simp
            omega
          rw [haddr] at h
          obtain ⟨h1, h2, ds2, hds, hprop⟩ := ih _ _ _ h
          refine ⟨?_, ?_,
            (pyStrip before, 0x00400000 + 4 * instrs0.length) :: ds2,
            by simp [hds], ?_⟩
          · rw [h1]
            simp [List.filterMap_cons, line_instr, heq, hempty]
          · rw [h2]
            simp [declared_labels, List.filterMap_cons, heq]
          · intro p hp
            rcases List.mem_cons.mp hp with hp | hp
            · subst hp
              refine ⟨instrs0.length, le_refl _, ?_, rfl⟩
              rw [h1]
              simp
            · obtain ⟨k, hk1, hk2, hk3⟩ := hprop p hp
              refine ⟨k, ?_, hk2, hk3⟩
              simp at hk1
              omega
    · rename_i heq
      have haddr : 0x00400000 + 4 * instrs0.length + 4 =
          0x00400000 + 4 * (instrs0 ++ [pyStrip l]).length := by
        simp
        omega
      rw [haddr] at h
      obtain ⟨h1, h2, ds2, hds, hprop⟩ := ih _ _ _ h
      refine ⟨?_, ?_, ds2, hds, ?_⟩
      · rw [h1]
        simp [List.filterMap_cons, line_instr, heq]
      · rw [h2]
        simp [declared_labels, List.filterMap_cons, heq]
      · intro p hp
        obtain ⟨k, hk1, hk2, hk3⟩ := hprop p hp
        refine ⟨k, ?_, hk2, hk3⟩
        simp at hk1
        omega

/-- A label declared on any given line is bound to the counter value for the
number of instruction-bearing lines strictly before that line — before any
increment for the line itself. -/
theorem parse_labels_aux_binds :
    ∀ (ls1 : List (List Char)) l ls2 instrs0 lbls0 out before after,
      parse_labels_aux (ls1 ++ l :: ls2) instrs0 lbls0
        (0x00400000 + 4 * instrs0.length) = Except.ok out →
      pySplitOnce ':' l = some (before, after) →
      (pyStrip before,
        0x00400000 + 4 * (instrs0.length + (ls1.filterMap line_instr).length))
        ∈ out.2 := by
  intro ls1
  induction ls1 with
  | nil =>
    intro l ls2 instrs0 lbls0 out before after h hsp
    simp only [List.nil_append] at h
    simp only [parse_labels_aux, hsp] at h
    split at h
    · exact Except.noConfusion h
    · split at h
      · obtain ⟨ds2, hds⟩ := parse_labels_aux_shape _ _ _ _ _ h
        rw [hds]
        simp [line_instr]
      · obtain ⟨ds2, hds⟩ := parse_labels_aux_shape _ _ _ _ _ h
        rw [hds]
        simp [line_instr]
  | cons x ls1 ih =>
    intro l ls2 instrs0 lbls0 out before after h hsp
    simp only [List.cons_append] at h
    simp only [parse_labels_aux] at h
    split at h
    · rename_i xb xa hx
      split at h
      · exact Except.noConfusion h
      · split at h
        · rename_i hempty
          have hcount :
              (instrs0.length + ((x :: ls1).filterMap line_instr).length) =
                (instrs0.length + (ls1.filterMap line_instr).length) := by
            simp [List.filterMap_cons, line_instr, hx, hempty]
          rw [hcount]
          exact ih _ _ _ _ _ _ _ h hsp
        · rename_i hempty
          have haddr : 0x00400000 + 4 * instrs0.length + 4 =
              0x00400000 + 4 * (instrs0 ++ [pyStrip xa]).length := by
            simp
            omega
          rw [haddr] at h
          have hmem := ih _ _ _ _ _ _ _ h hsp
          have hcount :
              (instrs0 ++ [pyStrip xa]).length +
                  (ls1.filterMap line_instr).length =
                instrs0.length + ((x :: ls1).filterMap line_instr).length := by
            simp [List.filterMap_cons, line_instr, hx, hempty]
            omega
          rw [hcount] at hmem
          exact hmem
    · rename_i hx
      have haddr : 0x00400000 + 4 * instrs0.length + 4 =
          0x00400000 + 4 * (instrs0 ++ [pyStrip x]).length := by
        simp
        omega
      rw [haddr] at h
      have hmem := ih _ _ _ _ _ _ _ h hsp
      have hcount :
          (instrs0 ++ [pyStrip x]).length + (ls1.filterMap line_instr).length =
            instrs0.length + ((x :: ls1).filterMap line_instr).length := by
        simp [List.filterMap_cons, line_instr, hx]
        omega
      rw [hcount] at hmem
      exact hmem

/-- C3: on success of `parse_labels` the instruction list is exactly the
instruction-bearing lines in order (so the Nth of them gets address
`index_to_address N = 0x00400000 + 4 N` downstream), label names are exactly
the declared labels with no duplicates, and every label is bound to
`index_to_address k` where `k` counts the instruction-bearing lines strictly
before its own line — the index of the next instruction actually emitted,
before any increment for the label's own line; declaring the same label name
twice always fails with `BadLabel`. -/
theorem parse_labels_spec :
    (∀ ls instrs lbls, parse_labels ls = Except.ok (instrs, lbls) →
      instrs = ls.filterMap line_instr ∧
      (lbls.map Prod.fst).Nodup ∧
      lbls.map Prod.fst = declared_labels ls ∧
      (∀ p ∈ lbls, ∃ k, k ≤ instrs.length ∧ p.2 = index_to_address k)) ∧
    (∀ ls1 l ls2 instrs lbls before after,
      parse_labels (ls1 ++ l :: ls2) = Except.ok (instrs, lbls) →
      pySplitOnce ':' l = some (before, after) →
      (pyStrip before,
        index_to_address ((ls1.filterMap line_instr).length)) ∈ lbls) ∧
    (∀ ls, ¬ (declared_labels ls).Nodup →
      parse_labels ls = Except.error AsmError.BadLabel) := by
  have hzero : (0x00400000 : Nat) =
      0x00400000 + 4 * (([] : List (List Char)).length) := by simp
  refine ⟨?_, ?_, ?_⟩
  · intro ls instrs lbls h
    rw [parse_labels, hzero] at h
    obtain ⟨h1, h2, ds2, hds, hprop⟩ := parse_labels_aux_ok ls [] [] (instrs, lbls) h
    simp only [List.nil_append, List.map_nil] at h1 h2 hds
    have hnd : (lbls.map Prod.fst).Nodup := by
      refine parse_labels_aux_nodup ls [] [] _ (instrs, lbls) h ?_
      simp
    refine ⟨h1, hnd, h2, ?_⟩
    intro p hp
    rw [hds] at hp
    obtain ⟨k, _, hk2, hk3⟩ := hprop p hp
    refine ⟨k, hk2, ?_⟩
    rw [hk3, index_to_address]
    omega
  · intro ls1 l ls2 instrs lbls before after h hsp
    rw [parse_labels, hzero] at h
    have hmem := parse_labels_aux_binds ls1 l ls2 [] [] (instrs, lbls)
      before after h hsp
    simp only [List.length_nil, Nat.zero_add] at hmem
    have haddr : index_to_address ((ls1.filterMap line_instr).length) =
        0x00400000 + 4 * ((ls1.filterMap line_instr).length) := by
      rw [index_to_address]
      omega
    rw [haddr]
    exact hmem
  · intro ls hdup
    cases h : parse_labels ls with
    | error e =>
      rw [parse_labels] at h
      rw [parse_labels_aux_error ls [] [] _ e h]
    | ok out =>
      exfalso
      rw [parse_labels, hzero] at h
      obtain ⟨_, h2, _⟩ := parse_labels_aux_ok ls [] [] out h
      simp only [List.map_nil, List.nil_append] at h2
      have hnd : (out.2.map Prod.fst).Nodup := by
        refine parse_labels_aux_nodup ls [] [] _ out h ?_
        simp
      rw [h2] at hnd
      exact hdup hnd

/-- Witness for `parse_labels_spec` on a concrete program: a label on the same
line as an instruction, a label-only line binding to the following
instruction's address, and a trailing label-only line; plus the duplicate
rejection on a concrete program declaring `a` twice. -/
theorem parse_labels_spec_app :
    (∀ p ∈ [((("start").data : List Char), (0x00400000 : Nat)),
        ((("loop").data : List Char), 0x00400004),
        ((("fin").data : List Char), 0x00400008)],
      ∃ k, k ≤ ([("add x1, x2, x3").data, ("sub x1, x1, x1").data]).length ∧
        p.2 = index_to_address k) ∧
    parse_labels [("a: add x1, x1, x1").data, ("a: sub x1, x1, x1").data] =
      Except.error AsmError.BadLabel := by
  constructor
  · have h := (parse_labels_spec.1
      [("start: add x1, x2, x3").data, ("loop:").data,
       ("sub x1, x1, x1").data, ("fin:").data]
      [("add x1, x2, x3").data, ("sub x1, x1, x1").data]
      [((("start").data : List Char), 0x00400000),
       ((("loop").data : List Char), 0x00400004),
       ((("fin").data : List Char), 0x00400008)] rfl).2.2.2
    exact h
  · exact parse_labels_spec.2.2 _ (by decide)

/-- Modelled from the spec's field table: bit `k` of the 13-bit
two's-complement pattern of an SB byte offset (`imm[k]`). -/
def sbBit (off : Int) (k : Nat) : Char :=
  bitChar (((off.emod 8192).toNat).testBit k)

/-- Modelled from the spec's field table: the high SB immediate field
`{imm[12], imm[10:5]}` of the byte offset. -/
def sbImmHi (off : Int) : List Char :=
  [sbBit off 12, sbBit off 10, sbBit off 9, sbBit off 8, sbBit off 7,
   sbBit off 6, sbBit off 5]

/-- Modelled from the spec's field table: the low SB immediate field
`{imm[4:1], imm[11]}` of the byte offset. -/
def sbImmLo (off : Int) : List Char :=
  [sbBit off 4, sbBit off 3, sbBit off 2, sbBit off 1, sbBit off 11]

/-- Bit `j` of the 12-bit pattern of the arithmetically right-shifted offset
is bit `j + 1` of the 13-bit pattern of the offset itself. -/
theorem shr1_testBit (off : Int) (j : Nat) :
    (((pyShr1 off).emod 4096).toNat).testBit j =
      ((off.emod 8192).toNat).testBit (j + 1) := by
  have hconvm : ∀ a b : Int, Int.emod a b = a % b := fun _ _ => rfl
  have hconvd : ∀ a b : Int, Int.ediv a b = a / b := fun _ _ => rfl
  have h : (off.emod 8192).toNat =
      2 * ((pyShr1 off).emod 4096).toNat + (off.emod 2).toNat := by
    simp only [pyShr1, hconvm, hconvd]
    omega
  rw [Nat.testBit_add_one, h]
  have hdiv :
      (2 * ((pyShr1 off).emod 4096).toNat + (off.emod 2).toNat) / 2 =
        ((pyShr1 off).emod 4096).toNat := by
    simp only [pyShr1, hconvm, hconvd]
    omega
  rw [hdiv]

/-- The 12-character binary rendering, written out. -/
theorem natBinChars_12_explicit (m : Nat) :
    natBinChars 12 m =
      [bitChar (m.testBit 11), bitChar (m.testBit 10), bitChar (m.testBit 9),
       bitChar (m.testBit 8), bitChar (m.testBit 7), bitChar (m.testBit 6),
       bitChar (m.testBit 5), bitChar (m.testBit 4), bitChar (m.testBit 3),
       bitChar (m.testBit 2), bitChar (m.testBit 1), bitChar (m.testBit 0)] :=
  rfl

/-- A register with a known ID converts to its 5-bit binary string. -/
theorem get_register_bin_eq (r : List Char) (n : Nat)
    (h : register_name_to_num r = some n) :
    get_register_bin r = Except.ok (natBinChars 5 n) := by
  simp [get_register_bin, h]

/-- When the shifted offset is below `2 ^ 12`, the conversion succeeds with
the masked 12-bit pattern. -/
theorem sb_dec_to_bin_eq (off : Int) (h : pyShr1 off < 4096) :
    dec_to_bin (pyShr1 off) 12 =
      Except.ok (natBinChars 12 (((pyShr1 off).emod 4096).toNat)) := by
  have h2 : ((2 : Int) ^ (12 : Nat)) = 4096 := by norm_num
  rw [dec_to_bin, h2, if_neg (not_le.mpr h)]

/-- The code's slicing of the shifted 12-bit pattern produces exactly the
spec's SB immediate fields of the unshifted byte offset. -/
theorem sb_fields_eq (off : Int) :
    ([bitChar ((((pyShr1 off).emod 4096).toNat).testBit 11)] ++
        (((natBinChars 12 (((pyShr1 off).emod 4096).toNat)).drop 2).take 6) =
      sbImmHi off) ∧
    ((((natBinChars 12 (((pyShr1 off).emod 4096).toNat)).drop 8).take 4) ++
        [bitChar ((((pyShr1 off).emod 4096).toNat).testBit 10)] =
      sbImmLo off) := by
  have hb : ∀ j k : Nat, j + 1 = k →
      bitChar ((((pyShr1 off).emod 4096).toNat).testBit j) = sbBit off k := by
    intro j k hjk
    rw [sbBit, ← hjk, ← shr1_testBit]
  rw [natBinChars_12_explicit]
  constructor
  · rw [hb 11 12 rfl, hb 9 10 rfl, hb 8 9 rfl, hb 7 8 rfl, hb 6 7 rfl,
      hb 5 6 rfl, hb 4 5 rfl]
    rfl
  · rw [hb 3 4 rfl, hb 2 3 rfl, hb 1 2 rfl, hb 0 1 rfl, hb 10 11 rfl]
    rfl

/-- Reduction of a bind on a success value. -/
theorem asm_bind_ok {α β : Type} (a : α) (f : α → Except AsmError β) :
    Bind.bind (Except.ok a) f = f a := rfl

/-- Reduction of a bind on an error value. -/
theorem asm_bind_error {α β : Type} (e : AsmError) (f : α → Except AsmError β) :
    Bind.bind (Except.error e : Except AsmError α) f = Except.error e := rfl

/-- First character of the 12-bit rendering. -/
theorem natBinChars_12_get0 (m : Nat) :
    (natBinChars 12 m).get? 0 = some (bitChar (m.testBit 11)) := rfl

/-- Second character of the 12-bit rendering. -/
theorem natBinChars_12_get1 (m : Nat) :
    (natBinChars 12 m).get? 1 = some (bitChar (m.testBit 10)) := rfl

/-- C5: for every SB branch `rs1, rs2, target` with valid registers: a decimal
target (or negative decimal) whose right-shifted value fits in 12 bits encodes
as `{imm[12],imm[10:5]} · rs2 · rs1 · funct3 · {imm[4:1],imm[11]} · opcode`
built from the bits of the byte offset, with rs1/rs2 the registers' 5-bit IDs;
a label target found in a nonempty table encodes the same way with byte offset
`label_table[target] − (0x00400000 + 4·index)`; a register-name token in the
target position raises `BadImmediate`. -/
theorem Assemble_SB_Type_spec (cmd : List Char) (fd : FieldData)
    (f3 o0 o1 t : List Char) (n0 n1 lnum : Nat)
    (lbls : List (List Char × Nat))
    (hty : inst_to_types cmd = some Types.SB)
    (hfd : inst_to_fields cmd = some fd) (hf3 : fd.func3 = some f3)
    (h0 : register_name_to_num o0 = some n0)
    (h1 : register_name_to_num o1 = some n1) :
    (∀ v : Int, (pyIsDecimal t ∨ t.head? = some '-') → parsePyInt t = some v →
      pyShr1 v < 4096 →
      Assemble_SB_Type cmd [o0, o1, t] lnum lbls =
        Except.ok (join_inst_fields_bin
          [sbImmHi v, natBinChars 5 n1, natBinChars 5 n0, f3, sbImmLo v,
           fd.opcode])) ∧
    (∀ a : Nat, ¬ (pyIsDecimal t ∨ t.head? = some '-') →
      is_register_name t = false → lbls ≠ [] → lookup_label lbls t = some a →
      pyShr1 ((a : Int) - (index_to_address lnum : Int)) < 4096 →
      Assemble_SB_Type cmd [o0, o1, t] lnum lbls =
        Except.ok (join_inst_fields_bin
          [sbImmHi ((a : Int) - (index_to_address lnum : Int)),
           natBinChars 5 n1, natBinChars 5 n0, f3,
           sbImmLo ((a : Int) - (index_to_address lnum : Int)), fd.opcode])) ∧
    (¬ (pyIsDecimal t ∨ t.head? = some '-') → is_register_name t = true →
      Assemble_SB_Type cmd [o0, o1, t] lnum lbls =
        Except.error AsmError.BadImmediate) := by
  have hcore : is_core_inst cmd = true := by
    rw [is_core_inst, hty]
    rfl
  refine ⟨?_, ?_, ?_⟩
  · intro v hc hv hlt
    simp only [Assemble_SB_Type, hcore, not_true_eq_false, if_false,
      if_pos hc, hv, sb_dec_to_bin_eq v hlt, asm_bind_ok,
      get_register_bin_eq o0 n0 h0, get_register_bin_eq o1 n1 h1,
      natBinChars_12_get0, natBinChars_12_get1, hfd, hf3]
    rw [(sb_fields_eq v).1, (sb_fields_eq v).2]
  · intro a hnc hreg hne hlk hlt
    have hlen : ¬ (lbls.length = 0) := by
      simpa [List.length_eq_zero] using hne
    simp only [Assemble_SB_Type, hcore, not_true_eq_false, if_false,
      if_neg hnc, hreg, Bool.false_eq_true, label_to_offset, if_neg hlen, hlk,
      sb_dec_to_bin_eq _ hlt, asm_bind_ok,
      get_register_bin_eq o0 n0 h0, get_register_bin_eq o1 n1 h1,
      natBinChars_12_get0, natBinChars_12_get1, hfd, hf3]
    rw [(sb_fields_eq ((a : Int) - (index_to_address lnum : Int))).1,
      (sb_fields_eq ((a : Int) - (index_to_address lnum : Int))).2]
  · intro hnc hreg
    simp only [Assemble_SB_Type, hcore, not_true_eq_false, if_false,
      if_neg hnc, hreg, eq_self_iff_true, if_true, asm_bind_error]

/-- Witness for `Assemble_SB_Type_spec`: `beq x1, x2, 8` at index 0 encodes
with the shifted offset 4 split into the SB fields. -/
theorem Assemble_SB_Type_spec_app :
    Assemble_SB_Type (("beq").data) [("x1").data, ("x2").data, ("8").data]
      0 [] =
      Except.ok (("0000 0000 0010 0000 1000 0100 0110 0011").data) := by
  have h := (Assemble_SB_Type_spec (("beq").data)
      (FieldData.mk (("1100011").data) (some (("000").data)) none)
      (("000").data) (("x1").data) (("x2").data) (("8").data) 1 2 0 []
      rfl rfl rfl rfl rfl).1 8 (Or.inl rfl) rfl (by norm_num [pyShr1])
  rw [h]
  rfl
